import Mathlib

/-!
Shallow embedding of the `rchain` ledger engine (src/rchain/mod.rs):
accounts, the world state, transaction execution, block hashing, block
admission and whole-chain validity checking, together with theorems
settling the specification claims about them.

Modelling conventions:
* `u128` values are `Nat`s; checked arithmetic tests the `2 ^ 128` bound
  explicitly, and the unchecked `+=` of the source is modelled with the
  release-profile wrapping semantics (`% 2 ^ 128`).
* `HashMap<String, Account>` is modelled as an association list
  (`List (String × Account)`); `get` is first-match lookup, `get_mut`
  followed by a field write is a first-match in-place update.
* Branches of the source that can abort (a `unwrap` on a value not
  guarded by a preceding check) are modelled by an `Option` wrapper:
  `none` is the aborting branch, `some r` the returned result `r`.
* `SystemTime::now()` is an external input and becomes an explicit
  `now` argument of `Transaction.new`.
-/

/-- Decidable equality for `Except`, used to evaluate results of the
modelled operations on concrete inputs. -/
instance {e a : Type} [DecidableEq e] [DecidableEq a] : DecidableEq (Except e a)
  | .ok x, .ok y =>
    match decEq x y with
    | isTrue h => isTrue (by rw [h])
    | isFalse h => isFalse (fun hc => h (Except.ok.inj hc))
  | .ok _, .error _ => isFalse (fun hc => Except.noConfusion hc)
  | .error _, .ok _ => isFalse (fun hc => Except.noConfusion hc)
  | .error x, .error y =>
    match decEq x y with
    | isTrue h => isTrue (by rw [h])
    | isFalse h => isFalse (fun hc => h (Except.error.inj hc))

/-- The `u128` modulus: token balances and amounts live below this bound. -/
def U128_MOD : Nat := 2 ^ 128

/-- `u128::checked_add`: `some` of the sum when it stays representable. -/
def checked_add (a b : Nat) : Option Nat :=
  if a + b < U128_MOD then some (a + b) else none

/-- `u128::checked_sub`: `some` of the difference when it does not underflow. -/
def checked_sub (a b : Nat) : Option Nat :=
  if b ≤ a then some (a - b) else none

/-- Release-profile semantics of the unchecked `+=` on `u128`. -/
def wrapping_add (a b : Nat) : Nat := (a + b) % U128_MOD

/-- `AccountType` of the source (User / Contract / Validator). -/
inductive AccountType where
  | User : AccountType
  | Contract : AccountType
  | Validator (correctly_validated_blocks incorrectly_validated_blocks : Nat)
      (you_get_the_idea : Bool) : AccountType
deriving DecidableEq

/-- `Account`: key/value store, role tag and token balance. -/
structure Account where
  store : List (String × String)
  acc_type : AccountType
  tokens : Nat
deriving DecidableEq

/-- `Account::new`: empty store, zero tokens, the given role. -/
def Account.new (account_type : AccountType) : Account :=
  { tokens := 0, acc_type := account_type, store := [] }

/-- `TransactionData`: the tagged variant of operations. -/
inductive TransactionData where
  | CreateUserAccount : String → TransactionData
  | ChangeStoreValue (key value : String) : TransactionData
  | TransferTokens (to_ : String) (amount : Nat) : TransactionData
  | CreateTokens (receiver : String) (amount : Nat) : TransactionData
deriving DecidableEq

/-- `Transaction`: nonce, sender id (`from` is a Lean keyword, hence `from_`),
creation time, record and optional signature. -/
structure Transaction where
  nonce : Nat
  from_ : String
  created_at : Nat
  record : TransactionData
  signature : Option String
deriving DecidableEq

/-- The world state: the `accounts: HashMap<String, Account>` of the
blockchain, modelled as an association list keyed by account id. -/
abbrev WorldState := List (String × Account)

/-- `HashMap::get` / `get_account_by_id`: first entry with the given key. -/
def get_account_by_id : WorldState → String → Option Account
  | [], _ => none
  | (k, a) :: rest, id => if k == id then some a else get_account_by_id rest id

/-- `get_user_ids`: the stored account ids. -/
def get_user_ids (ws : WorldState) : List String := ws.map Prod.fst

/-- A field write through `HashMap::get_mut`: update the first entry with
the given key in place, leaving everything else untouched. -/
def update_account : WorldState → String → (Account → Account) → WorldState
  | [], _, _ => []
  | (k, a) :: rest, id, f =>
    if k == id then (k, f a) :: rest else (k, a) :: update_account rest id f

/-- `world_state.get_account_by_id_mut(id).unwrap().tokens = v`: `none` is
the aborting branch of the `unwrap` (account absent). -/
def set_tokens (ws : WorldState) (id : String) (v : Nat) : Option WorldState :=
  match get_account_by_id ws id with
  | some _ => some (update_account ws id (fun a => { a with tokens := v }))
  | none => none

/-- `WorldState::create_account`: insert a fresh account unless the id is
already taken. -/
def create_account (ws : WorldState) (id : String) (account_type : AccountType) :
    Except String WorldState :=
  if !(get_user_ids ws).contains id then
    .ok (ws ++ [(id, Account.new account_type)])
  else
    .error "User already exists! (Code: 934823094)"

/-- `Transaction::new`: signature always absent; `now` is the external
clock reading (`SystemTime::now()`). -/
def Transaction.new (from_ : String) (transaction_data : TransactionData)
    (nonce : Nat) (now : Nat) : Transaction :=
  { from_ := from_, nonce := nonce, record := transaction_data,
    created_at := now, signature := none }

/-- The `match &self.record` dispatch inside `Transaction::execute`,
split out so the sender guard and the dispatch can be related directly.
`none` models the aborting branch of an `unwrap`. -/
def Transaction.execute_record (t : Transaction) (ws : WorldState)
    (is_initial : Bool) : Option (Except String Unit × WorldState) :=
  match t.record with
  | .CreateUserAccount account =>
    match create_account ws account .User with
    | .ok ws2 => some (.ok (), ws2)
    | .error e => some (.error e, ws)
  | .CreateTokens receiver amount =>
    if !is_initial then
      some (.error "Token creation is only available on initial creation (Code: 2394233)", ws)
    else
      match get_account_by_id ws receiver with
      | some _account =>
        some (.ok (), update_account ws receiver
          (fun a => { a with tokens := wrapping_add a.tokens amount }))
      | none => some (.error "Receiver Account does not exist (Code: 23482309)", ws)
  | .TransferTokens to_ amount =>
    match get_account_by_id ws to_ with
    | none => some (.error "Receiver Account does not exist! (Code: 3242342380)", ws)
    | some recv =>
      match get_account_by_id ws t.from_ with
      | none => some (.error "That account does not exist! (Code: 23423923)", ws)
      | some sender =>
        let balance_recv_new := checked_add recv.tokens amount
        let balance_sender_new := checked_sub sender.tokens amount
        match balance_recv_new, balance_sender_new with
        | some r, some s =>
          match set_tokens ws t.from_ s with
          | none => none
          | some ws1 =>
            match set_tokens ws1 to_ r with
            | none => none
            | some ws2 => some (.ok (), ws2)
        | _, _ => some (.error "Overspent or Arithmetic error (Code: 48239084203)", ws)
  | .ChangeStoreValue _ _ =>
    some (.error "Unknown Transaction type (not implemented) (Code: 487289724389)", ws)

/-- `Transaction::execute`: the sender-existence guard followed by the
record dispatch. `none` models an aborting branch. -/
def Transaction.execute (t : Transaction) (ws : WorldState) (is_initial : Bool) :
    Option (Except String Unit × WorldState) :=
  match get_account_by_id ws t.from_ with
  | some _account => t.execute_record ws is_initial
  | none =>
    if !is_initial then some (.error "Account does not exist (Code: 93482390)", ws)
    else t.execute_record ws is_initial

/-- `Transaction::is_signed`. -/
def Transaction.is_signed (t : Transaction) : Bool := t.signature.isSome

/-- `Transaction::check_signature`: the stub of the source — `false` for
an unsigned transaction and `false` (signature checking unimplemented)
for a signed one. -/
def Transaction.check_signature (t : Transaction) : Bool :=
  if !t.is_signed then false else false

/-- Rendering used for the tuple in `format!("{:?}", ...)`: a fixed,
deterministic serialization of a transaction record. -/
def fmtTransactionData : TransactionData → String
  | .CreateUserAccount account => "CreateUserAccount(" ++ account ++ ")"
  | .ChangeStoreValue key value => "ChangeStoreValue(" ++ key ++ "," ++ value ++ ")"
  | .TransferTokens to_ amount => "TransferTokens(" ++ to_ ++ "," ++ toString amount ++ ")"
  | .CreateTokens receiver amount => "CreateTokens(" ++ receiver ++ "," ++ toString amount ++ ")"

/-- Rendering of an `Option<String>` for the block serialization. -/
def fmtOptionString : Option String → String
  | none => "None"
  | some s => "Some(" ++ s ++ ")"

/-- Modelled from the spec: stand-in for the external Blake2b digest of a
sequence of `update` chunks. The spec requires only a deterministic, pure
digest of the byte stream ("an implementer may use any fixed textual
encoding ... only consistency between computation and storage is
required"); no claim depends on any other property of the digest, so it
is modelled as a plain deterministic function of the chunks. -/
def blake2_model (chunks : List String) : String := "h:" ++ String.join chunks

/-- `byte_vector_to_string`: byte-to-char rendering of a digest; the
modelled digest already is a string, so this is the identity on it. -/
def byte_vector_to_string (arr : String) : String := arr

/-- `Transaction::calculate_hash`: digest of
`format!("{:?}", (created_at, record, from, nonce))`. -/
def Transaction.calculate_hash (t : Transaction) : String :=
  blake2_model ["(" ++ toString t.created_at ++ "," ++ fmtTransactionData t.record
    ++ "," ++ t.from_ ++ "," ++ toString t.nonce ++ ")"]

/-- `Block`: transactions, parent fingerprint, own cached fingerprint, nonce. -/
structure Block where
  transactions : List Transaction
  prev_hash : Option String
  hash : Option String
  nonce : Nat
deriving DecidableEq

/-- `Block::new`: no transactions, no stored hash, nonce zero. -/
def Block.new (prev_hash : Option String) : Block :=
  { nonce := 0, hash := none, prev_hash := prev_hash, transactions := [] }

/-- `Block::calculate_hash`: digest of every transaction fingerprint, in
order, followed by `format!("{:?}", (prev_hash, nonce))`. -/
def Block.calculate_hash (b : Block) : String :=
  blake2_model (b.transactions.map Transaction.calculate_hash
    ++ ["(" ++ fmtOptionString b.prev_hash ++ "," ++ toString b.nonce ++ ")"])

/-- `Block::update_hash`: overwrite the stored fingerprint with the
recomputed one. -/
def Block.update_hash (b : Block) : Block :=
  { b with hash := some (byte_vector_to_string b.calculate_hash) }

/-- `Block::add_transaction`: push the transaction, then `update_hash`. -/
def Block.add_transaction (b : Block) (transaction : Transaction) : Block :=
  Block.update_hash { b with transactions := b.transactions ++ [transaction] }

/-- `Block::set_nonce`: set the nonce, then `update_hash`. -/
def Block.set_nonce (b : Block) (nonce : Nat) : Block :=
  Block.update_hash { b with nonce := nonce }

/-- `Block::get_transaction_count`. -/
def Block.get_transaction_count (b : Block) : Nat := b.transactions.length

/-- `Block::verify_own_hash`: a stored fingerprint exists and equals the
freshly recomputed one. -/
def Block.verify_own_hash (b : Block) : Bool :=
  match b.hash with
  | none => false
  | some h => h == byte_vector_to_string b.calculate_hash

/-- `Blockchain`: accepted blocks, the live world state, and the (never
populated) pending-transaction queue. -/
structure Blockchain where
  blocks : List Block
  accounts : WorldState
  pending_transactions : List Transaction
deriving DecidableEq

/-- `Blockchain::new`. -/
def Blockchain.new : Blockchain :=
  { blocks := [], accounts := [], pending_transactions := [] }

/-- `Blockchain::len`. -/
def Blockchain.len (bc : Blockchain) : Nat := bc.blocks.length

/-- `Blockchain::get_last_block_hash`: `blocks[len - 1].hash` after a
`len == 0` guard, i.e. the stored hash of the last block, if any. -/
def Blockchain.get_last_block_hash (bc : Blockchain) : Option String :=
  match bc.blocks.getLast? with
  | none => none
  | some b => b.hash

/-- The `for (i, transaction) in block.transactions.iter().enumerate()`
loop of `append_block`: run the transactions in order against the live
state; on the first failure report its 0-based index and the cause.
`none` models an aborting branch inside `execute`. -/
def run_transactions : List Transaction → WorldState → Bool → Nat →
    Option (Except (Nat × String) WorldState)
  | [], ws, _, _ => some (.ok ws)
  | t :: rest, ws, is_initial, i =>
    match t.execute ws is_initial with
    | none => none
    | some (.error e, _) => some (.error (i, e))
    | some (.ok _, ws2) => run_transactions rest ws2 is_initial (i + 1)

/-- The `TransactionFailed` message `append_block` formats at 0-based
index `i` with cause `e`. -/
def transaction_failed_msg (i : Nat) (e : String) : String :=
  "Could not execute transaction " ++ toString (i + 1) ++ " due to `" ++ e
    ++ "`. Rolling back (Code: 38203984)"

/-- `Blockchain::append_block`: hash check, linkage check, non-emptiness
check, then execution of every transaction with
`is_genesis = (len == 0)`; on a transaction failure the snapshot is
restored (the returned chain is the untouched input), on success the
block is pushed. `none` models an aborting branch. -/
def Blockchain.append_block (bc : Blockchain) (block : Block) :
    Option (Except String Unit × Blockchain) :=
  let is_genesis := bc.len == 0
  if !block.verify_own_hash then
    some (.error "The block hash is mismatching! (Code: 93820394)", bc)
  else if !(block.prev_hash == bc.get_last_block_hash) then
    some (.error "The new block has to point to the previous block (Code: 3948230)", bc)
  else if block.get_transaction_count == 0 then
    some (.error "There has to be at least one transaction inside the block! (Code: 9482930)", bc)
  else
    match run_transactions block.transactions bc.accounts is_genesis 0 with
    | none => none
    | some (.error (i, e)) => some (.error (transaction_failed_msg i e), bc)
    | some (.ok ws2) =>
      some (.ok (), { bc with accounts := ws2, blocks := bc.blocks ++ [block] })

/-- The inner signature scan of `check_validity` over one block's
transactions: first offending transaction wins; `bnum` and `tnum` are the
0-based block and transaction numbers used in the message. -/
def invalid_signature_msg (tnum bnum : Nat) : String :=
  "Transaction #" ++ toString (tnum + 1) ++ " for Block #" ++ toString (bnum + 1)
    ++ " has an invalid signature (Code: 4398239048)"

def check_sigs (bnum : Nat) : List Transaction → Nat → Option String
  | [], _ => none
  | t :: rest, tnum =>
    if t.is_signed && !t.check_signature then
      some (invalid_signature_msg tnum bnum)
    else check_sigs bnum rest (tnum + 1)

/-- The linkage check of `check_validity` for the block at 0-based index
`i` with preceding block `prev` (`none` exactly for the genesis
position): `none` is the aborting `unwrap` of the previous block's
stored hash, `some none` a pass, `some (some msg)` a failure. -/
def link_check (prev : Option Block) (i : Nat) (b : Block) : Option (Option String) :=
  match prev with
  | none =>
    if b.prev_hash.isSome then
      some (some "The genesis block has a previous hash set which it shouldn't Code :394823098")
    else some none
  | some p =>
    match b.prev_hash with
    | none => some (some ("Block #" ++ toString (i + 1) ++ " has no previous hash set"))
    | some proposed =>
      match p.hash with
      | none => none
      | some actual =>
        if b.prev_hash == p.hash then some none
        else
          some (some ("Block #" ++ toString i
            ++ " is not connected to previous block (Hashes do not match. Should be `"
            ++ proposed ++ "` but is `" ++ actual ++ "`)"))

/-- The block loop of `check_validity`: own-hash check, linkage check,
signature scan, in that order, stopping at the first violation. `prev`
is the previously processed block (`none` exactly when `i = 0`). -/
def cv_loop : Option Block → Nat → List Block → Option (Except String Unit)
  | _, _, [] => some (.ok ())
  | prev, i, b :: rest =>
    if !b.verify_own_hash then
      some (.error ("Stored hash for Block #" ++ toString (i + 1)
        ++ " does not match calculated hash (Code: 665234234)"))
    else
      match link_check prev i b with
      | none => none
      | some (some msg) => some (.error msg)
      | some none =>
        match check_sigs i b.transactions 0 with
        | some msg => some (.error msg)
        | none => cv_loop (some b) (i + 1) rest

/-- `Blockchain::check_validity`. -/
def Blockchain.check_validity (bc : Blockchain) : Option (Except String Unit) :=
  cv_loop none 0 bc.blocks

/-- The linkage condition `check_validity` imposes on one block given
its predecessor (`none` at the genesis position): the genesis block has
no parent fingerprint, a later block's `prev_hash` is set and equals the
predecessor's stored hash. -/
def link_cond (prev : Option Block) (b : Block) : Bool :=
  match prev with
  | none => b.prev_hash == none
  | some p => !(b.prev_hash == none) && b.prev_hash == p.hash

/-- The hash-and-linkage part of the `check_validity` conditions, as a
Boolean over the block list, threading each block as the predecessor of
the next. -/
def links_ok : Option Block → List Block → Bool
  | _, [] => true
  | prev, b :: rest =>
    b.verify_own_hash && link_cond prev b && links_ok (some b) rest

/-- Blocks built through the public interface: start from `Block::new`,
then any sequence of `add_transaction` (with transactions coming from
`Transaction::new`, which leaves the signature absent) and `set_nonce`. -/
inductive BuiltBlock : Block → Prop
  | new (prev_hash : Option String) : BuiltBlock (Block.new prev_hash)
  | add {b : Block} (t : Transaction) (from_ : String) (d : TransactionData)
      (nonce now : Nat) : BuiltBlock b → t = Transaction.new from_ d nonce now →
      BuiltBlock (b.add_transaction t)
  | set {b : Block} (nonce : Nat) : BuiltBlock b → BuiltBlock (b.set_nonce nonce)

/-- Chains built through the public interface: start from
`Blockchain::new` and retain the result of every successful
`append_block` of a publicly built block. -/
inductive ReachableChain : Blockchain → Prop
  | new : ReachableChain Blockchain.new
  | step {bc bc2 : Blockchain} {b : Block} : ReachableChain bc → BuiltBlock b →
      bc.append_block b = some (.ok (), bc2) → ReachableChain bc2

/-- Sample transaction: create the account "alice" (genesis bootstrap). -/
def tx_create_alice : Transaction :=
  Transaction.new "alice" (.CreateUserAccount "alice") 0 0

/-- Sample transaction: mint 100000000 tokens for "alice". -/
def tx_mint_alice : Transaction :=
  Transaction.new "alice" (.CreateTokens "alice" 100000000) 1 0

/-- Sample transaction: a transfer from "alice" to the absent "bob". -/
def tx_alice_to_bob : Transaction :=
  Transaction.new "alice" (.TransferTokens "bob" 1) 2 0

/-- Sample genesis block: create "alice", then mint for her. -/
def genesis_block : Block :=
  ((Block.new none).add_transaction tx_create_alice).add_transaction tx_mint_alice

/-- Sample failing block: the second transaction refers to the absent
receiver "bob" and fails. -/
def failing_block : Block :=
  ((Block.new none).add_transaction tx_create_alice).add_transaction tx_alice_to_bob

/-- Sample signed transaction (the signature field set by hand, as the
tamper demonstrations of the source do). -/
def tx_signed : Transaction :=
  { nonce := 0, from_ := "a", created_at := 0,
    record := .CreateUserAccount "a", signature := some "s" }

/-- Sample world state: one account at the top of the `u128` range. -/
def ws_max : WorldState :=
  [("a", { store := [], acc_type := .User, tokens := U128_MOD - 1 })]

/-- Sample transaction: mint one more token for the maxed-out account. -/
def tx_mint_overflow : Transaction :=
  Transaction.new "a" (.CreateTokens "a" 1) 0 0

/-- Sample world state: one account holding 5 tokens. -/
def ws_five : WorldState :=
  [("a", { store := [], acc_type := .User, tokens := 5 })]

/-- Sample transaction: a transfer from "a" to itself. -/
def tx_self_transfer : Transaction :=
  Transaction.new "a" (.TransferTokens "a" 1) 0 0

/-- Sample transaction: an overspending transfer from "a" to itself. -/
def tx_overspend : Transaction :=
  Transaction.new "a" (.TransferTokens "a" 10) 0 0

/-- Sample world state: "alice" and "bob", each with 100000000 tokens. -/
def ws_ab : WorldState :=
  [("alice", { store := [], acc_type := .User, tokens := 100000000 }),
   ("bob", { store := [], acc_type := .User, tokens := 100000000 })]

/-- Sample transaction: transfer 1 token from "alice" to "bob". -/
def tx_a_to_b : Transaction :=
  Transaction.new "alice" (.TransferTokens "bob" 1) 0 0

/-- The chain after appending the sample genesis block. -/
def chain_after_genesis : Blockchain :=
  { blocks := [genesis_block],
    accounts := [("alice", { store := [], acc_type := .User, tokens := 100000000 })],
    pending_transactions := [] }

theorem get_update_eq (ws : WorldState) (id : String) (f : Account → Account)
    (a : Account) (h : get_account_by_id ws id = some a) :
    get_account_by_id (update_account ws id f) id = some (f a) := by
  induction ws with
  | nil => simp [get_account_by_id] at h
  | cons p rest ih =>
    obtain ⟨k, acc⟩ := p
    cases hbe : (k == id) with
    | true =>
      simp [get_account_by_id, hbe] at h
      simp [update_account, hbe, get_account_by_id, h]
    | false =>
      simp [get_account_by_id, hbe] at h
      simp [update_account, hbe, get_account_by_id, ih h]

theorem get_update_ne (ws : WorldState) (id id' : String) (f : Account → Account)
    (h : id ≠ id') :
    get_account_by_id (update_account ws id' f) id = get_account_by_id ws id := by
  induction ws with
  | nil => simp [update_account]
  | cons p rest ih =>
    obtain ⟨k, acc⟩ := p
    cases hbe : (k == id') with
    | true =>
      have hk : k = id' := by simpa using hbe
      have : (k == id) = false := by
        subst hk; simp [beq_iff_eq]; exact fun hc => h hc.symm
      simp [update_account, hbe, get_account_by_id, this]
    | false =>
      cases hbi : (k == id) with
      | true => simp [update_account, hbe, get_account_by_id, hbi]
      | false => simp [update_account, hbe, get_account_by_id, hbi, ih]

theorem get_update_isSome (ws : WorldState) (id id' : String) (f : Account → Account) :
    (get_account_by_id (update_account ws id' f) id).isSome
      = (get_account_by_id ws id).isSome := by
  induction ws with
  | nil => simp [update_account]
  | cons p rest ih =>
    obtain ⟨k, acc⟩ := p
    cases hbe : (k == id') with
    | true =>
      cases hbi : (k == id) with
      | true => simp [update_account, hbe, get_account_by_id, hbi]
      | false => simp [update_account, hbe, get_account_by_id, hbi]
    | false =>
      cases hbi : (k == id) with
      | true => simp [update_account, hbe, get_account_by_id, hbi]
      | false => simp [update_account, hbe, get_account_by_id, hbi, ih]

theorem update_hash_content (b : Block) :
    (Block.update_hash b).calculate_hash = b.calculate_hash := rfl

theorem verify_update_hash (b : Block) :
    (Block.update_hash b).verify_own_hash = true := by
  simp only [Block.verify_own_hash, Block.update_hash]
  exact beq_self_eq_true _

theorem verify_own_hash_true_iff (b : Block) :
    b.verify_own_hash = true ↔ b.hash = some (byte_vector_to_string b.calculate_hash) := by
  cases hb : b.hash with
  | none => simp [Block.verify_own_hash, hb]
  | some h => simp [Block.verify_own_hash, hb, beq_iff_eq]

theorem verify_hash_isSome (b : Block) (h : b.verify_own_hash = true) :
    b.hash.isSome = true := by
  rw [verify_own_hash_true_iff] at h
  simp [h]

theorem check_signature_false (t : Transaction) : t.check_signature = false := by
  simp [Transaction.check_signature]

theorem check_sigs_none_iff (bnum : Nat) (txs : List Transaction) (j : Nat) :
    check_sigs bnum txs j = none ↔ ∀ t ∈ txs, t.is_signed = false := by
  induction txs generalizing j with
  | nil => simp [check_sigs]
  | cons t rest ih =>
    cases hs : t.is_signed with
    | true => simp [check_sigs, hs, check_signature_false]
    | false => simp [check_sigs, hs, check_signature_false, ih]

theorem check_sigs_first_signed (bnum j : Nat) (pre : List Transaction)
    (t : Transaction) (post : List Transaction)
    (hpre : ∀ u ∈ pre, u.is_signed = false) (ht : t.is_signed = true) :
    check_sigs bnum (pre ++ t :: post) j = some (invalid_signature_msg (j + pre.length) bnum) := by
  induction pre generalizing j with
  | nil => simp [check_sigs, ht, check_signature_false]
  | cons u rest ih =>
    have hu : u.is_signed = false := hpre u (List.mem_cons_self u rest)
    have hrest : ∀ v ∈ rest, v.is_signed = false := fun v hv => hpre v (List.mem_cons_of_mem u hv)
    simp only [List.cons_append, check_sigs, hu, check_signature_false, Bool.false_and,
      Bool.false_eq_true, if_false]
    show check_sigs bnum (rest ++ t :: post) (j + 1)
      = some (invalid_signature_msg (j + (u :: rest).length) bnum)
    rw [ih (j + 1) hrest, List.length_cons]
    congr 2
    omega

theorem set_tokens_of_isSome (ws : WorldState) (id : String) (v : Nat)
    (h : (get_account_by_id ws id).isSome = true) :
    set_tokens ws id v = some (update_account ws id (fun a => { a with tokens := v })) := by
  cases hg : get_account_by_id ws id with
  | none => rw [hg] at h; simp at h
  | some a => simp [set_tokens, hg]

theorem execute_record_error_state (t : Transaction) (ws : WorldState) (ini : Bool)
    (e : String) (ws' : WorldState)
    (h : t.execute_record ws ini = some (.error e, ws')) : ws' = ws := by
  cases hr : t.record with
  | CreateUserAccount account =>
    simp only [Transaction.execute_record, hr] at h
    cases hc : create_account ws account .User with
    | ok ws2 => simp [hc] at h
    | error e2 => simp [hc] at h; exact h.2.symm
  | ChangeStoreValue k v =>
    simp [Transaction.execute_record, hr] at h
    exact h.2.symm
  | CreateTokens receiver amount =>
    simp only [Transaction.execute_record, hr] at h
    cases ini with
    | false => simp at h; exact h.2.symm
    | true =>
      cases hg : get_account_by_id ws receiver with
      | some a => simp [hg] at h
      | none => simp [hg] at h; exact h.2.symm
  | TransferTokens to_ amount =>
    simp only [Transaction.execute_record, hr] at h
    cases hto : get_account_by_id ws to_ with
    | none => simp [hto] at h; exact h.2.symm
    | some recv =>
      cases hfrom : get_account_by_id ws t.from_ with
      | none => simp [hto, hfrom] at h; exact h.2.symm
      | some sender =>
        cases hca : checked_add recv.tokens amount with
        | none =>
          cases hcs : checked_sub sender.tokens amount with
          | none => simp [hto, hfrom, hca, hcs] at h; exact h.2.symm
          | some s => simp [hto, hfrom, hca, hcs] at h; exact h.2.symm
        | some r =>
          cases hcs : checked_sub sender.tokens amount with
          | none => simp [hto, hfrom, hca, hcs] at h; exact h.2.symm
          | some s =>
            have h1 := set_tokens_of_isSome ws t.from_ s (by simp [hfrom])
            have h2 : (get_account_by_id (update_account ws t.from_
                (fun a => { a with tokens := s })) to_).isSome = true := by
              rw [get_update_isSome]; simp [hto]
            have h3 := set_tokens_of_isSome _ to_ r h2
            simp [hto, hfrom, hca, hcs, h1, h3] at h

theorem execute_error_state (t : Transaction) (ws : WorldState) (ini : Bool)
    (e : String) (ws' : WorldState)
    (h : t.execute ws ini = some (.error e, ws')) : ws' = ws := by
  unfold Transaction.execute at h
  split at h
  · exact execute_record_error_state t ws ini e ws' h
  · split at h
    · simp at h; exact h.2.symm
    · exact execute_record_error_state t ws ini e ws' h

theorem execute_record_isSome (t : Transaction) (ws : WorldState) (ini : Bool) :
    (t.execute_record ws ini).isSome = true := by
  cases hr : t.record with
  | CreateUserAccount account =>
    simp only [Transaction.execute_record, hr]
    cases create_account ws account .User <;> simp
  | ChangeStoreValue k v => simp [Transaction.execute_record, hr]
  | CreateTokens receiver amount =>
    simp only [Transaction.execute_record, hr]
    cases ini with
    | false => simp
    | true =>
      cases hg : get_account_by_id ws receiver <;> simp [hg]
  | TransferTokens to_ amount =>
    simp only [Transaction.execute_record, hr]
    cases hto : get_account_by_id ws to_ with
    | none => simp
    | some recv =>
      cases hfrom : get_account_by_id ws t.from_ with
      | none => simp
      | some sender =>
        cases hca : checked_add recv.tokens amount with
        | none =>
          cases hcs : checked_sub sender.tokens amount <;> simp [hca, hcs]
        | some r =>
          cases hcs : checked_sub sender.tokens amount with
          | none => simp [hca, hcs]
          | some s =>
            have h1 : set_tokens ws t.from_ s
                = some (update_account ws t.from_ (fun a => { a with tokens := s })) :=
              set_tokens_of_isSome ws t.from_ s (by simp [hfrom])
            have h2 : (get_account_by_id
                (update_account ws t.from_ (fun a => { a with tokens := s })) to_).isSome
                = true := by
              rw [get_update_isSome]; simp [hto]
            have h3 : set_tokens (update_account ws t.from_
                  (fun a => { a with tokens := s })) to_ r
                = some (update_account (update_account ws t.from_
                    (fun a => { a with tokens := s })) to_ (fun a => { a with tokens := r })) :=
              set_tokens_of_isSome _ to_ r h2
            simp [hca, hcs, h1, h3]

theorem execute_isSome (t : Transaction) (ws : WorldState) (ini : Bool) :
    (t.execute ws ini).isSome = true := by
  unfold Transaction.execute
  split
  · exact execute_record_isSome t ws ini
  · split
    · simp
    · exact execute_record_isSome t ws ini

theorem execute_guard_missing (t : Transaction) (ws : WorldState)
    (h : get_account_by_id ws t.from_ = none) :
    t.execute ws false = some (.error "Account does not exist (Code: 93482390)", ws) := by
  simp [Transaction.execute, h]

theorem execute_guard_initial (t : Transaction) (ws : WorldState)
    (h : get_account_by_id ws t.from_ = none) :
    t.execute ws true = t.execute_record ws true := by
  simp [Transaction.execute, h]

theorem execute_of_sender_exists (t : Transaction) (ws : WorldState) (ini : Bool)
    (a : Account) (h : get_account_by_id ws t.from_ = some a) :
    t.execute ws ini = t.execute_record ws ini := by
  simp [Transaction.execute, h]

theorem transfer_success (t : Transaction) (ws : WorldState) (ini : Bool)
    (to_ : String) (amount : Nat) (recv sender : Account)
    (hr : t.record = .TransferTokens to_ amount)
    (hto : get_account_by_id ws to_ = some recv)
    (hfrom : get_account_by_id ws t.from_ = some sender)
    (hadd : recv.tokens + amount < U128_MOD)
    (hsub : amount ≤ sender.tokens) :
    t.execute ws ini = some (.ok (),
      update_account (update_account ws t.from_
        (fun a => { a with tokens := sender.tokens - amount })) to_
        (fun a => { a with tokens := recv.tokens + amount })) := by
  rw [execute_of_sender_exists t ws ini sender hfrom]
  simp only [Transaction.execute_record, hr]
  have hca : checked_add recv.tokens amount = some (recv.tokens + amount) := by
    simp [checked_add, hadd]
  have hcs : checked_sub sender.tokens amount = some (sender.tokens - amount) := by
    simp [checked_sub, hsub]
  have h1 := set_tokens_of_isSome ws t.from_ (sender.tokens - amount) (by simp [hfrom])
  have h2 : (get_account_by_id (update_account ws t.from_
      (fun a => { a with tokens := sender.tokens - amount })) to_).isSome = true := by
    rw [get_update_isSome]; simp [hto]
  have h3 := set_tokens_of_isSome _ to_ (recv.tokens + amount) h2
  simp [hto, hfrom, hca, hcs, h1, h3]

theorem transfer_fault (t : Transaction) (ws : WorldState) (ini : Bool)
    (to_ : String) (amount : Nat) (recv sender : Account)
    (hr : t.record = .TransferTokens to_ amount)
    (hto : get_account_by_id ws to_ = some recv)
    (hfrom : get_account_by_id ws t.from_ = some sender)
    (hbad : U128_MOD ≤ recv.tokens + amount ∨ sender.tokens < amount) :
    t.execute ws ini
      = some (.error "Overspent or Arithmetic error (Code: 48239084203)", ws) := by
  rw [execute_of_sender_exists t ws ini sender hfrom]
  simp only [Transaction.execute_record, hr]
  rcases hbad with hbad | hbad
  · have hca : checked_add recv.tokens amount = none := by
      simp [checked_add]; omega
    cases hcs : checked_sub sender.tokens amount <;> simp [hto, hfrom, hca, hcs]
  · have hcs : checked_sub sender.tokens amount = none := by
      simp [checked_sub]; omega
    cases hca : checked_add recv.tokens amount <;> simp [hto, hfrom, hca, hcs]

theorem create_tokens_wrap (t : Transaction) (ws : WorldState)
    (receiver : String) (amount : Nat) (a : Account)
    (hr : t.record = .CreateTokens receiver amount)
    (hrecv : get_account_by_id ws receiver = some a) :
    t.execute ws true = some (.ok (), update_account ws receiver
      (fun x => { x with tokens := wrapping_add x.tokens amount })) := by
  cases hfrom : get_account_by_id ws t.from_ with
  | some b =>
    rw [execute_of_sender_exists t ws true b hfrom]
    simp [Transaction.execute_record, hr, hrecv]
  | none =>
    rw [execute_guard_initial t ws hfrom]
    simp [Transaction.execute_record, hr, hrecv]


theorem link_check_pass_iff (prev : Option Block) (i : Nat) (b : Block) :
    link_check prev i b = some none ↔ link_cond prev b = true := by
  cases prev with
  | none =>
    cases hp : b.prev_hash <;> simp [link_check, link_cond, hp]
  | some p =>
    cases hp : b.prev_hash with
    | none => simp [link_check, link_cond, hp]
    | some proposed =>
      cases hq : p.hash with
      | none => simp [link_check, link_cond, hp, hq]
      | some actual =>
        cases hbe : (b.prev_hash == p.hash) with
        | true => simp [link_check, link_cond, hp, hq, hbe]
        | false =>
          rw [hp, hq] at hbe
          simp [link_check, link_cond, hp, hq, hbe]

theorem cv_loop_ok_iff (blocks : List Block) (prev : Option Block) (i : Nat) :
    cv_loop prev i blocks = some (.ok ()) ↔
      (links_ok prev blocks = true
        ∧ ∀ b ∈ blocks, ∀ t ∈ b.transactions, t.is_signed = false) := by
  induction blocks generalizing prev i with
  | nil => simp [cv_loop, links_ok]
  | cons b rest ih =>
    cases hv : b.verify_own_hash with
    | false => simp [cv_loop, links_ok, hv]
    | true =>
      cases hl : link_check prev i b with
      | none =>
        have hc : link_cond prev b = false := by
          cases hcc : link_cond prev b with
          | false => rfl
          | true => rw [← link_check_pass_iff prev i b] at hcc; rw [hcc] at hl; cases hl
        simp [cv_loop, links_ok, hv, hl, hc]
      | some lr =>
        cases lr with
        | some msg =>
          have hc : link_cond prev b = false := by
            cases hcc : link_cond prev b with
            | false => rfl
            | true =>
              rw [← link_check_pass_iff prev i b] at hcc
              rw [hcc] at hl
              cases hl
          simp [cv_loop, links_ok, hv, hl, hc]
        | none =>
          have hc : link_cond prev b = true := (link_check_pass_iff prev i b).mp hl
          cases hcs : check_sigs i b.transactions 0 with
          | some msg =>
            have hns : ¬ ∀ t ∈ b.transactions, t.is_signed = false := by
              rw [← check_sigs_none_iff i b.transactions 0, hcs]
              simp
            simp only [cv_loop, hv, Bool.not_true, Bool.false_eq_true, if_false, hl, hcs,
              links_ok, hc, Bool.and_true, Bool.true_and]
            constructor
            · intro h; cases h
            · rintro ⟨-, hall⟩
              exact absurd (fun t ht => hall b (List.mem_cons_self b rest) t ht) hns
          | none =>
            have hsig := (check_sigs_none_iff i b.transactions 0).mp hcs
            simp only [cv_loop, hv, Bool.not_true, Bool.false_eq_true, if_false, hl, hcs,
              links_ok, hc, Bool.and_true, Bool.true_and]
            rw [ih (some b) (i + 1)]
            constructor
            · rintro ⟨hlk, hrest⟩
              refine ⟨hlk, ?_⟩
              intro x hx
              rcases List.mem_cons.mp hx with hx | hx
              · subst hx; exact hsig
              · exact hrest x hx
            · rintro ⟨hlk, hall⟩
              exact ⟨hlk, fun x hx => hall x (List.mem_cons_of_mem b hx)⟩

theorem link_check_isSome (prev : Option Block) (i : Nat) (b : Block)
    (hprev : ∀ p, prev = some p → p.hash.isSome = true) :
    (link_check prev i b).isSome = true := by
  cases prev with
  | none => cases hp : b.prev_hash <;> simp [link_check, hp]
  | some p =>
    cases hp : b.prev_hash with
    | none => simp [link_check, hp]
    | some proposed =>
      cases hq : p.hash with
      | none =>
        have := hprev p rfl
        rw [hq] at this
        simp at this
      | some actual =>
        by_cases hbe : proposed = actual <;> simp [link_check, hp, hq, hbe]

theorem cv_loop_isSome (blocks : List Block) (prev : Option Block) (i : Nat)
    (hprev : ∀ p, prev = some p → p.hash.isSome = true) :
    (cv_loop prev i blocks).isSome = true := by
  induction blocks generalizing prev i with
  | nil => simp [cv_loop]
  | cons b rest ih =>
    cases hv : b.verify_own_hash with
    | false => simp [cv_loop, hv]
    | true =>
      cases hl : link_check prev i b with
      | none =>
        have := link_check_isSome prev i b hprev
        rw [hl] at this
        simp at this
      | some lr =>
        cases lr with
        | some msg => simp [cv_loop, hv, hl]
        | none =>
          cases hcs : check_sigs i b.transactions 0 with
          | some msg => simp [cv_loop, hv, hl, hcs]
          | none =>
            simp only [cv_loop, hv, Bool.not_true, Bool.false_eq_true, if_false, hl, hcs]
            exact ih (some b) (i + 1)
              (fun p hp => by cases hp; exact verify_hash_isSome b hv)

theorem check_validity_isSome (bc : Blockchain) :
    (bc.check_validity).isSome = true :=
  cv_loop_isSome bc.blocks none 0 (fun p hp => by cases hp)

theorem append_block_ok_inv (bc : Blockchain) (b : Block) (bc2 : Blockchain)
    (h : bc.append_block b = some (.ok (), bc2)) :
    b.verify_own_hash = true ∧ b.prev_hash = bc.get_last_block_hash
      ∧ b.transactions ≠ []
      ∧ ∃ ws2, run_transactions b.transactions bc.accounts (bc.len == 0) 0 = some (.ok ws2)
          ∧ bc2 = { bc with accounts := ws2, blocks := bc.blocks ++ [b] } := by
  unfold Blockchain.append_block at h
  cases hv : b.verify_own_hash with
  | false => rw [hv] at h; simp at h
  | true =>
    rw [hv] at h
    cases hbe : (b.prev_hash == bc.get_last_block_hash) with
    | false => rw [hbe] at h; simp at h
    | true =>
      rw [hbe] at h
      cases hcnt : (b.get_transaction_count == 0) with
      | true => rw [hcnt] at h; simp at h
      | false =>
        rw [hcnt] at h
        simp only [Bool.not_true, Bool.false_eq_true, if_false] at h
        refine ⟨rfl, by simpa using hbe, ?_, ?_⟩
        · intro hnil
          rw [Block.get_transaction_count, hnil] at hcnt
          simp at hcnt
        · cases hrun : run_transactions b.transactions bc.accounts (bc.len == 0) 0 with
          | none => rw [hrun] at h; cases h
          | some r =>
            cases r with
            | error ie => rw [hrun] at h; simp at h
            | ok ws2 =>
              rw [hrun] at h
              simp only [Option.some.injEq, Prod.mk.injEq] at h
              exact ⟨ws2, rfl, h.2.symm⟩

theorem append_block_exec (bc : Blockchain) (b : Block)
    (hv : b.verify_own_hash = true)
    (hl : b.prev_hash = bc.get_last_block_hash)
    (hne : b.transactions ≠ []) :
    bc.append_block b
      = match run_transactions b.transactions bc.accounts (bc.len == 0) 0 with
        | none => none
        | some (.error (i, e)) => some (.error (transaction_failed_msg i e), bc)
        | some (.ok ws2) =>
          some (.ok (), { bc with accounts := ws2, blocks := bc.blocks ++ [b] }) := by
  unfold Blockchain.append_block
  have hcnt : (b.get_transaction_count == 0) = false := by
    rw [Block.get_transaction_count]
    simpa using hne
  rw [hv, hl]
  simp only [beq_self_eq_true, Bool.not_true, Bool.false_eq_true, if_false, hcnt]

/-- The block preceding a fresh append, given the predecessor of the
whole segment: the last block of the segment, or `prev` if it is empty. -/
def last_or (prev : Option Block) : List Block → Option Block
  | [] => prev
  | b :: rest => last_or (some b) rest

theorem last_or_getLast (blocks : List Block) (prev : Option Block) :
    last_or prev blocks
      = match blocks.getLast? with
        | none => prev
        | some p => some p := by
  induction blocks generalizing prev with
  | nil => simp [last_or]
  | cons b rest ih =>
    cases rest with
    | nil => simp [last_or]
    | cons c rest2 =>
      rw [List.getLast?_cons_cons]
      exact ih (some b)

theorem links_ok_append_iff (blocks : List Block) (prev : Option Block) (b : Block) :
    links_ok prev (blocks ++ [b]) = true ↔
      (links_ok prev blocks = true ∧ b.verify_own_hash = true
        ∧ link_cond (last_or prev blocks) b = true) := by
  induction blocks generalizing prev with
  | nil =>
    simp only [List.nil_append, links_ok, last_or, Bool.and_eq_true, Bool.and_true]
    tauto
  | cons c rest ih =>
    simp only [List.cons_append, links_ok, last_or, Bool.and_eq_true, List.append_eq]
    rw [ih (some c)]
    tauto

theorem links_ok_last_verify (blocks : List Block) (prev : Option Block) (p : Block)
    (h : links_ok prev blocks = true) (hl : blocks.getLast? = some p) :
    p.verify_own_hash = true := by
  induction blocks generalizing prev with
  | nil => cases hl
  | cons b rest ih =>
    simp only [links_ok, Bool.and_eq_true] at h
    cases rest with
    | nil =>
      simp at hl
      rw [← hl]
      exact h.1.1
    | cons c rest2 =>
      rw [List.getLast?_cons_cons] at hl
      exact ih (some b) h.2 hl

theorem built_block_unsigned (b : Block) (h : BuiltBlock b) :
    ∀ t ∈ b.transactions, t.is_signed = false := by
  induction h with
  | new prev_hash => simp [Block.new]
  | add t from_ d nonce now hb ht ih =>
    intro u hu
    simp only [Block.add_transaction, Block.update_hash] at hu
    rcases List.mem_append.mp hu with hu | hu
    · exact ih u hu
    · have : u = t := by simpa using hu
      subst this
      rw [ht]
      simp [Transaction.new, Transaction.is_signed]
  | set nonce hb ih =>
    intro u hu
    simp only [Block.set_nonce, Block.update_hash] at hu
    exact ih u hu

theorem reachable_links (bc : Blockchain) (h : ReachableChain bc) :
    links_ok none bc.blocks = true
      ∧ ∀ b ∈ bc.blocks, ∀ t ∈ b.transactions, t.is_signed = false := by
  induction h with
  | new => simp [Blockchain.new, links_ok]
  | step hbc hbuilt happ ih =>
    rename_i bc1 bc2 b
    obtain ⟨hv, hl, -, ws2, -, hbc2⟩ := append_block_ok_inv bc1 b bc2 happ
    have hblocks : bc2.blocks = bc1.blocks ++ [b] := by rw [hbc2]
    constructor
    · rw [hblocks, links_ok_append_iff]
      refine ⟨ih.1, hv, ?_⟩
      rw [last_or_getLast]
      cases hlast : bc1.blocks.getLast? with
      | none =>
        have hnone : bc1.get_last_block_hash = none := by
          rw [Blockchain.get_last_block_hash, hlast]
        simp [link_cond, hl, hnone]
      | some p =>
        have hgl : bc1.get_last_block_hash = p.hash := by
          rw [Blockchain.get_last_block_hash, hlast]
        have hps : p.hash.isSome = true :=
          verify_hash_isSome p (links_ok_last_verify bc1.blocks none p ih.1 hlast)
        simp only [link_cond, hl, hgl, Bool.and_eq_true, beq_self_eq_true, and_true]
        cases hph : p.hash with
        | none => rw [hph] at hps; cases hps
        | some s => simp
    · intro x hx
      rw [hblocks] at hx
      rcases List.mem_append.mp hx with hx | hx
      · exact ih.2 x hx
      · have : x = b := by simpa using hx
        subst this
        exact built_block_unsigned x hbuilt

theorem getLast_mem_of_eq (blocks : List Block) (p : Block)
    (h : blocks.getLast? = some p) : p ∈ blocks := by
  induction blocks with
  | nil => cases h
  | cons b rest ih =>
    cases rest with
    | nil =>
      simp at h
      simp [h]
    | cons c rest2 =>
      rw [List.getLast?_cons_cons] at h
      exact List.mem_cons_of_mem b (ih h)

theorem run_transactions_isSome (txs : List Transaction) (ws : WorldState)
    (ini : Bool) (i : Nat) : (run_transactions txs ws ini i).isSome = true := by
  induction txs generalizing ws i with
  | nil => simp [run_transactions]
  | cons t rest ih =>
    have hs := execute_isSome t ws ini
    cases he : t.execute ws ini with
    | none => rw [he] at hs; simp at hs
    | some r =>
      obtain ⟨res, ws2⟩ := r
      cases res with
      | error e => simp [run_transactions, he]
      | ok u => simp [run_transactions, he, ih]

theorem append_block_isSome (bc : Blockchain) (b : Block) :
    (bc.append_block b).isSome = true := by
  unfold Blockchain.append_block
  cases hv : b.verify_own_hash with
  | false => simp [hv]
  | true =>
    cases hbe : (b.prev_hash == bc.get_last_block_hash) with
    | false => simp [hbe]
    | true =>
      cases hcnt : (b.get_transaction_count == 0) with
      | true => simp [hcnt]
      | false =>
        have hs := run_transactions_isSome b.transactions bc.accounts (bc.len == 0) 0
        cases hrun : run_transactions b.transactions bc.accounts (bc.len == 0) 0 with
        | none => rw [hrun] at hs; simp at hs
        | some r =>
          cases r with
          | error ie => obtain ⟨i, e⟩ := ie; simp [hcnt, hrun]
          | ok ws2 => simp [hcnt, hrun]

/-- C1: Block admission is atomic. For every blockchain state and every
submitted block that passes the structural checks, if the transaction
run fails at (0-based) index `i` with cause `e`, then `append_block`
returns the unchanged blockchain — the account mapping is exactly its
pre-call value and the block is not appended — together with a
`TransactionFailed` error carrying the 1-based index `i + 1` and the
cause; no effect of earlier successful transactions of the block
survives. -/
theorem C1_append_block_atomic (bc : Blockchain) (block : Block) (i : Nat) (e : String)
    (hv : block.verify_own_hash = true)
    (hl : block.prev_hash = bc.get_last_block_hash)
    (hne : block.transactions ≠ [])
    (hrun : run_transactions block.transactions bc.accounts (bc.len == 0) 0
      = some (.error (i, e))) :
    bc.append_block block = some (.error (transaction_failed_msg i e), bc) := by
  rw [append_block_exec bc block hv hl hne, hrun]

/-- Witness for C1: on the empty chain, a genesis block whose first
transaction succeeds (creating "alice") and whose second fails (transfer
to the absent "bob") is rejected with the 1-based index 2 and leaves the
blockchain exactly as it was. -/
theorem C1_witness :
    failing_block.verify_own_hash = true
    ∧ failing_block.prev_hash = Blockchain.new.get_last_block_hash
    ∧ failing_block.transactions ≠ []
    ∧ run_transactions failing_block.transactions Blockchain.new.accounts
        (Blockchain.new.len == 0) 0
        = some (.error (1, "Receiver Account does not exist! (Code: 3242342380)"))
    ∧ Blockchain.new.append_block failing_block
        = some (.error (transaction_failed_msg 1
            "Receiver Account does not exist! (Code: 3242342380)"), Blockchain.new) :=
  ⟨by decide, by decide, by decide, by decide,
    C1_append_block_atomic Blockchain.new failing_block 1
      "Receiver Account does not exist! (Code: 3242342380)"
      (by decide) (by decide) (by decide) (by decide)⟩

/-- C4: Single-transaction atomicity. For every transaction, world state
and `is_initial` flag, whenever `execute` returns an error the world
state it returns equals the world state immediately before the call. -/
theorem C4_execute_atomic (t : Transaction) (ws : WorldState) (is_initial : Bool)
    (e : String) (ws' : WorldState)
    (h : t.execute ws is_initial = some (.error e, ws')) : ws' = ws :=
  execute_error_state t ws is_initial e ws' h

/-- Witness for C4: a duplicate `CreateUserAccount` fails and hands back
the untouched world state. -/
theorem C4_witness :
    (Transaction.new "a" (.CreateUserAccount "a") 0 0).execute
        [("a", { store := [], acc_type := .User, tokens := 5 })] false
      = some (.error "User already exists! (Code: 934823094)",
          [("a", { store := [], acc_type := .User, tokens := 5 })])
    ∧ ([("a", { store := [], acc_type := .User, tokens := 5 })] : WorldState)
      = [("a", { store := [], acc_type := .User, tokens := 5 })] :=
  ⟨by decide,
    C4_execute_atomic (Transaction.new "a" (.CreateUserAccount "a") 0 0)
      [("a", { store := [], acc_type := .User, tokens := 5 })] false
      "User already exists! (Code: 934823094)"
      [("a", { store := [], acc_type := .User, tokens := 5 })] (by decide)⟩

/-- C8: Totality. Every modelled core operation returns an explicit
result on every input: the `Option` wrapper whose `none` constructor
models an aborting (panicking) branch — the `unwrap` of the previous
block's stored hash inside `check_validity`, and the `unwrap`s of the
account lookups in `execute`'s transfer write-back — is never `none`,
on all inputs (the unchecked `CreateTokens` increment is modelled with
the non-aborting release-profile wrapping semantics). -/
theorem C8_totality :
    (∀ bc : Blockchain, (bc.check_validity).isSome = true)
    ∧ (∀ (t : Transaction) (ws : WorldState) (ini : Bool),
        (t.execute ws ini).isSome = true)
    ∧ (∀ (bc : Blockchain) (b : Block), (bc.append_block b).isSome = true) :=
  ⟨check_validity_isSome, execute_isSome, append_block_isSome⟩

/-- C9: Mutator/fingerprint round-trip. Immediately after
`add_transaction` (and likewise after `set_nonce`) the stored
fingerprint has been recomputed from the new content, so
`verify_own_hash` holds; and `verify_own_hash` is true exactly when a
stored fingerprint exists and equals the freshly recomputed one (the
check is a pure function of the block and modifies nothing). -/
theorem C9_hash_roundtrip :
    (∀ (b : Block) (t : Transaction), (b.add_transaction t).verify_own_hash = true)
    ∧ (∀ (b : Block) (n : Nat), (b.set_nonce n).verify_own_hash = true)
    ∧ (∀ b : Block,
        b.verify_own_hash = true
          ↔ b.hash = some (byte_vector_to_string b.calculate_hash)) :=
  ⟨fun b t => verify_update_hash { b with transactions := b.transactions ++ [t] },
    fun b n => verify_update_hash { b with nonce := n },
    verify_own_hash_true_iff⟩

/-- C5: `append_block` performs its structural checks in a fixed order,
short-circuiting on the first failure with a distinct error and leaving
the chain and world state unchanged: first `HashMismatch` when the
stored fingerprint is absent or differs from the recomputed one, second
`BrokenLink` when `prev_hash` differs from the chain's last stored
fingerprint (which is `None` exactly when the chain is empty, for any
chain whose blocks all carry stored hashes), third `EmptyBlock` when
there are no transactions; only once all three pass are the
transactions executed. -/
theorem C5_structural_checks (bc : Blockchain) (block : Block) :
    (block.verify_own_hash = false →
      bc.append_block block
        = some (.error "The block hash is mismatching! (Code: 93820394)", bc))
    ∧ (block.verify_own_hash = true → block.prev_hash ≠ bc.get_last_block_hash →
      bc.append_block block
        = some (.error "The new block has to point to the previous block (Code: 3948230)", bc))
    ∧ (block.verify_own_hash = true → block.prev_hash = bc.get_last_block_hash →
        block.transactions = [] →
      bc.append_block block
        = some (.error "There has to be at least one transaction inside the block! (Code: 9482930)", bc))
    ∧ (block.verify_own_hash = true
        ↔ block.hash = some (byte_vector_to_string block.calculate_hash))
    ∧ ((∀ p ∈ bc.blocks, p.hash.isSome = true) →
        (bc.get_last_block_hash = none ↔ bc.blocks = []))
    ∧ (block.verify_own_hash = true → block.prev_hash = bc.get_last_block_hash →
        block.transactions ≠ [] →
      bc.append_block block
        = match run_transactions block.transactions bc.accounts (bc.len == 0) 0 with
          | none => none
          | some (.error (i, e)) => some (.error (transaction_failed_msg i e), bc)
          | some (.ok ws2) =>
            some (.ok (), { bc with accounts := ws2, blocks := bc.blocks ++ [block] })) := by
  refine ⟨?_, ?_, ?_, verify_own_hash_true_iff block, ?_, append_block_exec bc block⟩
  · intro hv
    unfold Blockchain.append_block
    rw [hv]
    simp
  · intro hv hne
    unfold Blockchain.append_block
    rw [hv]
    have : (block.prev_hash == bc.get_last_block_hash) = false := by
      simpa using hne
    rw [this]
    simp
  · intro hv hl hnil
    unfold Blockchain.append_block
    rw [hv, hl]
    have : (block.get_transaction_count == 0) = true := by
      simp [Block.get_transaction_count, hnil]
    rw [beq_self_eq_true, this]
    simp
  · intro hall
    constructor
    · intro hnone
      cases hlast : bc.blocks.getLast? with
      | none => exact List.getLast?_eq_none_iff.mp hlast
      | some p =>
        rw [Blockchain.get_last_block_hash, hlast] at hnone
        simp only [] at hnone
        have := hall p (getLast_mem_of_eq bc.blocks p hlast)
        simp [hnone] at this
    · intro hnil
      rw [Blockchain.get_last_block_hash, hnil]
      simp

/-- Witness for C5: concrete instances of all three ordered failures and
the pass-through to execution — an unhashed block, a block pointing at a
nonexistent parent, an empty hashed block, and the sample genesis
block. -/
theorem C5_witness :
    Blockchain.new.append_block (Block.new none)
      = some (.error "The block hash is mismatching! (Code: 93820394)", Blockchain.new)
    ∧ Blockchain.new.append_block ((Block.new (some "zzz")).set_nonce 7)
      = some (.error "The new block has to point to the previous block (Code: 3948230)", Blockchain.new)
    ∧ Blockchain.new.append_block ((Block.new none).set_nonce 7)
      = some (.error "There has to be at least one transaction inside the block! (Code: 9482930)", Blockchain.new)
    ∧ (Blockchain.new.get_last_block_hash = none ↔ Blockchain.new.blocks = [])
    ∧ Blockchain.new.append_block genesis_block
      = match run_transactions genesis_block.transactions Blockchain.new.accounts
          (Blockchain.new.len == 0) 0 with
        | none => none
        | some (.error (i, e)) => some (.error (transaction_failed_msg i e), Blockchain.new)
        | some (.ok ws2) =>
          some (.ok (),
            { blocks := Blockchain.new.blocks ++ [genesis_block], accounts := ws2,
              pending_transactions := Blockchain.new.pending_transactions }) :=
  ⟨(C5_structural_checks Blockchain.new (Block.new none)).1 (by decide),
    (C5_structural_checks Blockchain.new ((Block.new (some "zzz")).set_nonce 7)).2.1
      (by decide) (by decide),
    (C5_structural_checks Blockchain.new ((Block.new none).set_nonce 7)).2.2.1
      (by decide) (by decide) (by decide),
    (C5_structural_checks Blockchain.new (Block.new none)).2.2.2.2.1 (by decide),
    (C5_structural_checks Blockchain.new genesis_block).2.2.2.2.2
      (by decide) (by decide) (by decide)⟩

/-- C6: Genesis gating. A transaction whose sender account is absent
fails with `UnknownSender` when `is_initial` is false, while with
`is_initial` true the missing sender alone does not fail (execution
proceeds to the record dispatch); `append_block` fixes
`is_initial = (chain length before the call == 0)` for the whole block,
so on an empty chain the run uses `true` for every transaction; and the
concrete genesis block `[CreateUserAccount "alice",
CreateTokens{receiver: "alice", amount: 100000000}]` succeeds on the
empty chain even though "alice" does not exist when the block begins
executing. -/
theorem C6_genesis_gating (t : Transaction) (ws : WorldState)
    (bc : Blockchain) (block : Block) :
    (get_account_by_id ws t.from_ = none →
      t.execute ws false = some (.error "Account does not exist (Code: 93482390)", ws))
    ∧ (get_account_by_id ws t.from_ = none →
      t.execute ws true = t.execute_record ws true)
    ∧ (bc.blocks = [] → block.verify_own_hash = true →
        block.prev_hash = bc.get_last_block_hash → block.transactions ≠ [] →
      bc.append_block block
        = match run_transactions block.transactions bc.accounts true 0 with
          | none => none
          | some (.error (i, e)) => some (.error (transaction_failed_msg i e), bc)
          | some (.ok ws2) =>
            some (.ok (), { bc with accounts := ws2, blocks := bc.blocks ++ [block] }))
    ∧ (Blockchain.new.append_block genesis_block = some (.ok (), chain_after_genesis)
        ∧ get_account_by_id chain_after_genesis.accounts "alice"
            = some { store := [], acc_type := .User, tokens := 100000000 }) := by
  refine ⟨execute_guard_missing t ws, execute_guard_initial t ws, ?_, by decide, by decide⟩
  intro hempty hv hl hne
  have hlen : (bc.len == 0) = true := by
    simp [Blockchain.len, hempty]
  rw [append_block_exec bc block hv hl hne, hlen]

/-- Witness for C6: the guard clauses at a concrete absent sender, the
empty-chain execution with `is_initial = true`, and the concrete genesis
bootstrap. -/
theorem C6_witness :
    ((Transaction.new "z" (.CreateUserAccount "z") 0 0).execute [] false
      = some (.error "Account does not exist (Code: 93482390)", []))
    ∧ ((Transaction.new "z" (.CreateUserAccount "z") 0 0).execute [] true
      = (Transaction.new "z" (.CreateUserAccount "z") 0 0).execute_record [] true)
    ∧ Blockchain.new.append_block genesis_block
      = match run_transactions genesis_block.transactions Blockchain.new.accounts true 0 with
        | none => none
        | some (.error (i, e)) => some (.error (transaction_failed_msg i e), Blockchain.new)
        | some (.ok ws2) =>
          some (.ok (),
            { blocks := Blockchain.new.blocks ++ [genesis_block], accounts := ws2,
              pending_transactions := Blockchain.new.pending_transactions }) :=
  ⟨(C6_genesis_gating (Transaction.new "z" (.CreateUserAccount "z") 0 0) []
      Blockchain.new genesis_block).1 (by decide),
    (C6_genesis_gating (Transaction.new "z" (.CreateUserAccount "z") 0 0) []
      Blockchain.new genesis_block).2.1 (by decide),
    (C6_genesis_gating (Transaction.new "z" (.CreateUserAccount "z") 0 0) []
      Blockchain.new genesis_block).2.2.1 (by decide) (by decide) (by decide) (by decide)⟩

/-- C7: Signature checking during `check_validity`. The verification
stub reports `false` for every transaction, so an unsigned transaction
is trivially acceptable while any signed transaction makes the scan fail
with the `InvalidSignature` message carrying the 1-based transaction and
block indices; hence on a chain whose blocks all pass the hash and
linkage checks, `check_validity` returns `Ok` if and only if no
transaction is signed. -/
theorem C7_signature_stub (bc : Blockchain) :
    (∀ t : Transaction, t.check_signature = false)
    ∧ (∀ (bnum j : Nat) (pre : List Transaction) (t : Transaction)
        (post : List Transaction),
        (∀ u ∈ pre, u.is_signed = false) → t.is_signed = true →
        check_sigs bnum (pre ++ t :: post) j
          = some (invalid_signature_msg (j + pre.length) bnum))
    ∧ (links_ok none bc.blocks = true →
        (bc.check_validity = some (.ok ())
          ↔ ∀ b ∈ bc.blocks, ∀ t ∈ b.transactions, t.is_signed = false)) := by
  refine ⟨check_signature_false, check_sigs_first_signed, ?_⟩
  intro hlinks
  rw [Blockchain.check_validity, cv_loop_ok_iff]
  simp [hlinks]

/-- Witness for C7: a signed transaction at position 0 yields the
message with indices 1 and 1, and on the concretely built one-block
chain (all unsigned) the equivalence gives `Ok`. -/
theorem C7_witness :
    check_sigs 0 ([] ++ tx_signed :: []) 0
      = some (invalid_signature_msg (0 + List.length ([] : List Transaction)) 0)
    ∧ chain_after_genesis.check_validity = some (.ok ()) :=
  ⟨(C7_signature_stub chain_after_genesis).2.1 0 0 [] tx_signed [] (by simp) (by decide),
    ((C7_signature_stub chain_after_genesis).2.2 (by decide)).mpr (by decide)⟩

/-- C10: Every chain built purely through the public interface passes
validation: starting from `Blockchain::new` and retaining the successful
`append_block`s of blocks built with `Block::new` / `add_transaction` /
`set_nonce` from `Transaction::new`-built transactions (signature always
absent), `check_validity` returns `Ok`. -/
theorem C10_reachable_valid (bc : Blockchain) (h : ReachableChain bc) :
    bc.check_validity = some (.ok ()) := by
  rw [Blockchain.check_validity, cv_loop_ok_iff]
  exact reachable_links bc h

/-- Witness for C10: the chain obtained by appending the sample genesis
block to the empty chain is reachable and passes `check_validity`. -/
theorem C10_witness : chain_after_genesis.check_validity = some (.ok ()) :=
  C10_reachable_valid chain_after_genesis
    (ReachableChain.step ReachableChain.new
      (BuiltBlock.add tx_mint_alice "alice" (.CreateTokens "alice" 100000000) 1 0
        (BuiltBlock.add tx_create_alice "alice" (.CreateUserAccount "alice") 0 0
          (BuiltBlock.new none) rfl) rfl)
      (by decide))

/-- Counterexample to C2 as stated: executing
`CreateTokens{receiver: "a", amount: 1}` during genesis against an
account holding `2^128 - 1` tokens moves the balance out of the
representable range, yet the operation is not rejected with an error —
it succeeds and the balance silently wraps to `0`. -/
theorem C2_counterexample :
    tx_mint_overflow.execute ws_max true
      = some (.ok (), [("a", { store := [], acc_type := .User, tokens := 0 })])
    ∧ U128_MOD - 1 + 1 = U128_MOD := ⟨by decide, by decide⟩

/-- C2 (amended): out-of-range arithmetic on `TransferTokens` is
rejected with `ArithmeticFault` and mutates nothing, but the
`CreateTokens` increment is unchecked: it always succeeds on an
existing receiver during genesis, wrapping the balance modulo `2^128`
instead of rejecting. -/
theorem C2_arithmetic_amended (t : Transaction) (ws : WorldState) (ini : Bool)
    (to_ receiver : String) (amount : Nat) (recv sender a : Account) :
    (t.record = .TransferTokens to_ amount →
      get_account_by_id ws to_ = some recv →
      get_account_by_id ws t.from_ = some sender →
      (U128_MOD ≤ recv.tokens + amount ∨ sender.tokens < amount) →
      t.execute ws ini
        = some (.error "Overspent or Arithmetic error (Code: 48239084203)", ws))
    ∧ (t.record = .CreateTokens receiver amount →
      get_account_by_id ws receiver = some a →
      t.execute ws true = some (.ok (), update_account ws receiver
        (fun x => { x with tokens := wrapping_add x.tokens amount }))) :=
  ⟨fun hr hto hfrom hbad => transfer_fault t ws ini to_ amount recv sender hr hto hfrom hbad,
    fun hr hrecv => create_tokens_wrap t ws receiver amount a hr hrecv⟩

/-- Witness for C2 (amended): an overspending self-transfer faults
without mutation, and the genesis mint against the maxed-out account
wraps. -/
theorem C2_witness :
    tx_overspend.execute ws_five false
      = some (.error "Overspent or Arithmetic error (Code: 48239084203)", ws_five)
    ∧ tx_mint_overflow.execute ws_max true
      = some (.ok (), update_account ws_max "a"
          (fun x => { x with tokens := wrapping_add x.tokens 1 })) :=
  ⟨(C2_arithmetic_amended tx_overspend ws_five false "a" "a" 10
      { store := [], acc_type := .User, tokens := 5 }
      { store := [], acc_type := .User, tokens := 5 }
      { store := [], acc_type := .User, tokens := 5 }).1
      (by decide) (by decide) (by decide) (Or.inr (by decide)),
    (C2_arithmetic_amended tx_mint_overflow ws_max true "a" "a" 1
      { store := [], acc_type := .User, tokens := U128_MOD - 1 }
      { store := [], acc_type := .User, tokens := U128_MOD - 1 }
      { store := [], acc_type := .User, tokens := U128_MOD - 1 }).2
      (by decide) (by decide)⟩

/-- Counterexample to C3 as stated: the claim allows `to = from`, and
for such a self-transfer it requires the sender's balance to become
`sender.tokens - amount`. On the concrete state where "a" holds 5
tokens, the self-transfer of 1 succeeds but "a" ends with 6 tokens —
the receiver write-back overwrites the sender write-back, so the final
balance is `tokens + amount`, not `tokens - amount`. -/
theorem C3_counterexample :
    ¬ (∀ (ws : WorldState) (t : Transaction) (to_ : String) (amount : Nat)
        (recv sender : Account),
        t.record = .TransferTokens to_ amount →
        get_account_by_id ws to_ = some recv →
        get_account_by_id ws t.from_ = some sender →
        ∀ ws2, t.execute ws false = some (.ok (), ws2) →
          get_account_by_id ws2 t.from_
            = some { sender with tokens := sender.tokens - amount }) := by
  intro hclaim
  have h := hclaim ws_five tx_self_transfer "a" 1
    { store := [], acc_type := .User, tokens := 5 }
    { store := [], acc_type := .User, tokens := 5 }
    (by decide) (by decide) (by decide)
    [("a", { store := [], acc_type := .User, tokens := 6 })] (by decide)
  exact absurd h (by decide)

/-- C3 (amended): with both accounts present and `to ≠ from`, a
transfer either succeeds — sender ends at `sender.tokens - amount`,
receiver at `receiver.tokens + amount`, via checked arithmetic — or
fails with `ArithmeticFault` mutating nothing; when `to = from`, a
successful transfer leaves the single balance at `tokens + amount`
(the receiver write overwrites the sender write); an absent sender
fails with `UnknownSender` when `is_initial` is false; an absent
receiver fails with `UnknownReceiver` (when the top-level sender check
does not fire first); an absent sender with `is_initial` true and the
receiver present fails with the dispatch-level `UnknownSender`. -/
theorem C3_transfer_amended (t : Transaction) (ws : WorldState) (ini : Bool)
    (to_ : String) (amount : Nat) (recv sender : Account) :
    (t.record = .TransferTokens to_ amount → to_ ≠ t.from_ →
      get_account_by_id ws to_ = some recv →
      get_account_by_id ws t.from_ = some sender →
      recv.tokens + amount < U128_MOD → amount ≤ sender.tokens →
      ∃ ws2, t.execute ws ini = some (.ok (), ws2)
        ∧ get_account_by_id ws2 t.from_
            = some { sender with tokens := sender.tokens - amount }
        ∧ get_account_by_id ws2 to_
            = some { recv with tokens := recv.tokens + amount })
    ∧ (t.record = .TransferTokens to_ amount →
      get_account_by_id ws to_ = some recv →
      get_account_by_id ws t.from_ = some sender →
      (U128_MOD ≤ recv.tokens + amount ∨ sender.tokens < amount) →
      t.execute ws ini
        = some (.error "Overspent or Arithmetic error (Code: 48239084203)", ws))
    ∧ (t.record = .TransferTokens t.from_ amount →
      get_account_by_id ws t.from_ = some sender →
      sender.tokens + amount < U128_MOD → amount ≤ sender.tokens →
      ∃ ws2, t.execute ws ini = some (.ok (), ws2)
        ∧ get_account_by_id ws2 t.from_
            = some { sender with tokens := sender.tokens + amount })
    ∧ (get_account_by_id ws t.from_ = none →
      t.execute ws false = some (.error "Account does not exist (Code: 93482390)", ws))
    ∧ (t.record = .TransferTokens to_ amount →
      get_account_by_id ws to_ = none →
      (ini = true ∨ (get_account_by_id ws t.from_).isSome = true) →
      t.execute ws ini
        = some (.error "Receiver Account does not exist! (Code: 3242342380)", ws))
    ∧ (t.record = .TransferTokens to_ amount →
      get_account_by_id ws t.from_ = none →
      get_account_by_id ws to_ = some recv →
      t.execute ws true
        = some (.error "That account does not exist! (Code: 23423923)", ws)) := by
  refine ⟨?_, fun hr hto hfrom hbad =>
      transfer_fault t ws ini to_ amount recv sender hr hto hfrom hbad,
    ?_, execute_guard_missing t ws, ?_, ?_⟩
  · intro hr hne hto hfrom hadd hsub
    refine ⟨_, transfer_success t ws ini to_ amount recv sender hr hto hfrom hadd hsub, ?_, ?_⟩
    · rw [get_update_ne _ t.from_ to_ _ (fun hc => hne hc.symm),
        get_update_eq ws t.from_ _ sender hfrom]
    · rw [get_update_eq _ to_ _ recv
        (by rw [get_update_ne _ to_ t.from_ _ hne]; exact hto)]
  · intro hr hfrom hadd hsub
    refine ⟨_, transfer_success t ws ini t.from_ amount sender sender hr hfrom hfrom hadd hsub,
      ?_⟩
    rw [get_update_eq _ t.from_ _ _ (get_update_eq ws t.from_ _ sender hfrom)]
  · intro hr hto hside
    rcases hside with hini | hsome
    · subst hini
      cases hfrom : get_account_by_id ws t.from_ with
      | none =>
        rw [execute_guard_initial t ws hfrom]
        simp [Transaction.execute_record, hr, hto]
      | some b =>
        rw [execute_of_sender_exists t ws true b hfrom]
        simp [Transaction.execute_record, hr, hto]
    · cases hfrom : get_account_by_id ws t.from_ with
      | none => rw [hfrom] at hsome; cases hsome
      | some b =>
        rw [execute_of_sender_exists t ws ini b hfrom]
        simp [Transaction.execute_record, hr, hto]
  · intro hr hfrom hto
    rw [execute_guard_initial t ws hfrom]
    simp [Transaction.execute_record, hr, hto, hfrom]

/-- Witness for C3 (amended): the concrete two-account transfer of one
token moves the balances to 99999999 and 100000001, and the
overspending self-transfer faults without mutating the state. -/
theorem C3_witness :
    (∃ ws2, tx_a_to_b.execute ws_ab false = some (.ok (), ws2)
      ∧ get_account_by_id ws2 tx_a_to_b.from_
          = some { store := [], acc_type := .User, tokens := 100000000 - 1 }
      ∧ get_account_by_id ws2 "bob"
          = some { store := [], acc_type := .User, tokens := 100000000 + 1 })
    ∧ tx_overspend.execute ws_five false
      = some (.error "Overspent or Arithmetic error (Code: 48239084203)", ws_five) :=
  ⟨(C3_transfer_amended tx_a_to_b ws_ab false "bob" 1
      { store := [], acc_type := .User, tokens := 100000000 }
      { store := [], acc_type := .User, tokens := 100000000 }).1
      (by decide) (by decide) (by decide) (by decide) (by decide) (by decide),
    (C3_transfer_amended tx_overspend ws_five false "a" 10
      { store := [], acc_type := .User, tokens := 5 }
      { store := [], acc_type := .User, tokens := 5 }).2.1
      (by decide) (by decide) (by decide) (Or.inr (by decide))⟩
